import Mathlib

/-!
# Verification of the gold-price forecast-serving pipeline

This development embeds the data model and the operations of the
gold-price-prediction repository and settles the specified properties
about them.

The repository snapshot ships the data-collection notebook
(`collect_data.ipynb`) as executable source; the forecast-serving
pipeline itself (calendar alignment, feature assembly, windowed
normalization, ensemble execution, aggregation) is described by the
specification but its code is not part of the snapshot, so those
components are modelled from the specification's own words, as marked
on each definition.

Values are rationals (the exact model of the numeric computations) and
dates are naturals in `yyyymmdd` form, on which the usual order of
naturals agrees with chronological order.
-/

namespace GoldForecast

/-! ## Windowed Normalizer: per-feature min-max transform -/

/-- Modelled from the spec: per-feature Normalization Parameters, a
(min, max) pair computed once at training time and persisted. -/
structure NormParams where
  min : ℚ
  max : ℚ
  deriving DecidableEq, Repr

/-- Modelled from the spec: the documented minimum divisor floor stored
with the parameter set, used in place of `max - min` for a degenerate
(constant) feature so that normalization never divides by zero. -/
def divisorFloor : ℚ := 1 / 10 ^ 8

/-- Modelled from the spec: the denominator actually used by the
normalization transform — `max - min`, replaced by the divisor floor
when the feature range is degenerate (`max = min`). -/
def divisor (p : NormParams) : ℚ :=
  if p.max - p.min = 0 then divisorFloor else p.max - p.min

/-- Modelled from the spec: forward transform `x' = (x - min) / (max - min)`
(with the divisor floor guarding the degenerate case). -/
def normalize (p : NormParams) (x : ℚ) : ℚ :=
  (x - p.min) / divisor p

/-- Modelled from the spec: inverse transform `x = x' * (max - min) + min`. -/
def denormalize (p : NormParams) (y : ℚ) : ℚ :=
  y * (p.max - p.min) + p.min

/-- Modelled from the spec: a zero-variance feature (`max = min`) is
flagged as non-informative. -/
def isDegenerate (p : NormParams) : Bool :=
  p.max == p.min

/-- Modelled from the spec: `DegenerateFeatureRange` is logged as a
data-quality warning, not surfaced as a hard error. -/
inductive DataQualityWarning where
  | degenerateFeatureRange
  deriving DecidableEq, Repr

/-- Modelled from the spec: normalization of one feature value returns
the transformed value together with the data-quality warnings raised
locally; its type carries no error case, so a degenerate range can
never abort the caller. -/
def normalizeChecked (p : NormParams) (x : ℚ) : ℚ × List DataQualityWarning :=
  ((x - p.min) / divisor p,
   if isDegenerate p then [.degenerateFeatureRange] else [])

theorem divisor_ne_zero (p : NormParams) : divisor p ≠ 0 := by
  unfold divisor
  split
  · unfold divisorFloor
    norm_num
  · assumption

/-- C1: for every feature whose persisted (min, max) are distinct and
every input value `x`, the inverse transform undoes the forward
transform: `denormalize (normalize x) = x` (exactly, in the rational
model of the arithmetic). -/
theorem C1_denormalize_normalize_roundtrip (p : NormParams) (x : ℚ)
    (h : p.min ≠ p.max) :
    denormalize p (normalize p x) = x := by
  have hne : p.max - p.min ≠ 0 := sub_ne_zero.mpr (Ne.symm h)
  unfold normalize denormalize divisor
  rw [if_neg hne]
  field_simp

/-- Witness for C1 at the concrete parameters (min, max) = (2, 10) and
input x = 7. -/
theorem C1_witness :
    (⟨2, 10⟩ : NormParams).min ≠ (⟨2, 10⟩ : NormParams).max ∧
    denormalize ⟨2, 10⟩ (normalize ⟨2, 10⟩ 7) = 7 :=
  ⟨by norm_num, C1_denormalize_normalize_roundtrip ⟨2, 10⟩ 7 (by norm_num)⟩

/-- C7: for a zero-variance feature (`max = min`) the transform divides
by the documented divisor floor instead of `max - min`; the divisor is
never zero (so no input produces an undefined value, the rational-model
reading of "never NaN or Inf"); the feature is flagged as
non-informative; and the checked normalization returns a value with a
warning — by its very type it cannot surface a hard error. -/
theorem C7_degenerate_range_uses_divisor_floor (p : NormParams) (x : ℚ)
    (h : p.max = p.min) :
    divisor p = divisorFloor ∧
    divisor p ≠ 0 ∧
    isDegenerate p = true ∧
    normalizeChecked p x = ((x - p.min) / divisorFloor, [.degenerateFeatureRange]) := by
  have hz : p.max - p.min = 0 := by rw [h]; ring
  have hdiv : divisor p = divisorFloor := by unfold divisor; rw [if_pos hz]
  have hdeg : isDegenerate p = true := by
    simp [isDegenerate, h]
  refine ⟨hdiv, divisor_ne_zero p, hdeg, ?_⟩
  simp [normalizeChecked, hdeg, hdiv]

/-- Witness for C7 at the concrete degenerate parameters
(min, max) = (5, 5) and input x = 3. -/
theorem C7_witness :
    (⟨5, 5⟩ : NormParams).max = (⟨5, 5⟩ : NormParams).min ∧
    (divisor ⟨5, 5⟩ = divisorFloor ∧
     divisor ⟨5, 5⟩ ≠ 0 ∧
     isDegenerate ⟨5, 5⟩ = true ∧
     normalizeChecked ⟨5, 5⟩ 3 = ((3 - 5) / divisorFloor, [.degenerateFeatureRange])) :=
  ⟨rfl, C7_degenerate_range_uses_divisor_floor ⟨5, 5⟩ 3 rfl⟩

/-! ## Calendar Aligner -/

/-- Modelled from the spec: one named scalar time series keyed by date
((date, value) pairs). -/
structure SourceSeries where
  name : String
  data : List (Nat × ℚ)
  deriving Repr

/-- Modelled from the spec: the error taxonomy of the pipeline's fatal
conditions. -/
inductive PipelineError where
  | missingSourceData (source : String)
  | featureContractViolation (column : String)
  | insufficientHistory
  deriving DecidableEq, Repr

/-- Modelled from the spec: forward-fill — the value a series carries on
day `d` is its most recent observation at a date `≤ d`, or missing when
the series has not started yet. -/
def lastObsAt (s : List (Nat × ℚ)) (d : Nat) : Option ℚ :=
  ((s.filter (fun o => o.1 ≤ d)).getLast?).map Prod.snd

/-- First (earliest) observed date of a series (0 for an empty series). -/
def firstDate : List (Nat × ℚ) → Nat
  | [] => 0
  | [o] => o.1
  | o :: rest => Nat.min o.1 (firstDate rest)

/-- Last (latest) observed date of a series (0 for an empty series). -/
def lastDate : List (Nat × ℚ) → Nat
  | [] => 0
  | [o] => o.1
  | o :: rest => Nat.max o.1 (lastDate rest)

/-- Earliest observed date across all sources. -/
def globalFirst : List SourceSeries → Nat
  | [] => 0
  | [s] => firstDate s.data
  | s :: rest => Nat.min (firstDate s.data) (globalFirst rest)

/-- Latest observed date across all sources. -/
def globalLast : List SourceSeries → Nat
  | [] => 0
  | [s] => lastDate s.data
  | s :: rest => Nat.max (lastDate s.data) (globalLast rest)

/-- The contiguous daily calendar from `lo` to `hi` inclusive. -/
def dailyIndex (lo hi : Nat) : List Nat :=
  (List.range (hi + 1 - lo)).map (fun i => lo + i)

/-- Modelled from the spec: the Calendar Aligner — fails with
`MissingSourceData` when some Source Series is entirely empty, otherwise
reindexes every series onto the full daily range between the earliest
and latest observed date across all sources, forward-filling gaps and
leaving leading gaps missing. -/
def alignPanel (sources : List SourceSeries) :
    Except PipelineError (List (String × List (Nat × Option ℚ))) :=
  match sources.find? (fun s => s.data.isEmpty) with
  | some s => .error (.missingSourceData s.name)
  | none => .ok (sources.map (fun s => (s.name,
      (dailyIndex (globalFirst sources) (globalLast sources)).map
        (fun d => (d, lastObsAt s.data d)))))

theorem mem_dailyIndex (lo hi d : Nat) :
    d ∈ dailyIndex lo hi ↔ lo ≤ d ∧ d ≤ hi := by
  unfold dailyIndex
  simp only [List.mem_map, List.mem_range]
  constructor
  · rintro ⟨i, hi2, rfl⟩
    omega
  · rintro ⟨h1, h2⟩
    exact ⟨d - lo, by omega, by omega⟩

theorem firstDate_le_of_mem :
    ∀ (s : List (Nat × ℚ)) (o : Nat × ℚ), o ∈ s → firstDate s ≤ o.1
  | [], o, h => by simp at h
  | [a], o, h => by
    simp only [List.mem_singleton] at h
    subst h
    simp [firstDate]
  | a :: b :: t, o, h => by
    rcases List.mem_cons.mp h with rfl | h2
    · exact Nat.min_le_left _ _
    · exact le_trans (Nat.min_le_right _ _) (firstDate_le_of_mem (b :: t) o h2)

theorem firstDate_mem :
    ∀ (s : List (Nat × ℚ)), s ≠ [] → ∃ o ∈ s, o.1 = firstDate s
  | [], h => absurd rfl h
  | [a], _ => ⟨a, List.mem_singleton_self a, rfl⟩
  | a :: b :: t, _ => by
    rcases firstDate_mem (b :: t) (by simp) with ⟨o, ho, heq⟩
    rcases Nat.le_total a.1 (firstDate (b :: t)) with hle | hle
    · refine ⟨a, List.mem_cons_self a _, ?_⟩
      show a.1 = Nat.min a.1 (firstDate (b :: t))
      simp only [Nat.min_def]
      split <;> omega
    · refine ⟨o, List.mem_cons_of_mem a ho, ?_⟩
      show o.1 = Nat.min a.1 (firstDate (b :: t))
      simp only [Nat.min_def]
      split <;> omega

theorem lastDate_ge_of_mem :
    ∀ (s : List (Nat × ℚ)) (o : Nat × ℚ), o ∈ s → o.1 ≤ lastDate s
  | [], o, h => by simp at h
  | [a], o, h => by
    simp only [List.mem_singleton] at h
    subst h
    simp [lastDate]
  | a :: b :: t, o, h => by
    rcases List.mem_cons.mp h with rfl | h2
    · exact Nat.le_max_left _ _
    · exact le_trans (lastDate_ge_of_mem (b :: t) o h2) (Nat.le_max_right _ _)

theorem globalFirst_le_firstDate :
    ∀ (sources : List SourceSeries) (s : SourceSeries), s ∈ sources →
      globalFirst sources ≤ firstDate s.data
  | [], s, h => by simp at h
  | [a], s, h => by
    simp only [List.mem_singleton] at h
    subst h
    exact le_refl _
  | a :: b :: t, s, h => by
    rcases List.mem_cons.mp h with rfl | h2
    · exact Nat.min_le_left _ _
    · exact le_trans (Nat.min_le_right _ _) (globalFirst_le_firstDate (b :: t) s h2)

theorem lastDate_le_globalLast :
    ∀ (sources : List SourceSeries) (s : SourceSeries), s ∈ sources →
      lastDate s.data ≤ globalLast sources
  | [], s, h => by simp at h
  | [a], s, h => by
    simp only [List.mem_singleton] at h
    subst h
    exact le_refl _
  | a :: b :: t, s, h => by
    rcases List.mem_cons.mp h with rfl | h2
    · exact Nat.le_max_left _ _
    · exact le_trans (lastDate_le_globalLast (b :: t) s h2) (Nat.le_max_right _ _)

theorem lastObsAt_isSome_iff (s : List (Nat × ℚ)) (d : Nat) :
    (lastObsAt s d).isSome ↔ ∃ o ∈ s, o.1 ≤ d := by
  unfold lastObsAt
  rw [Option.isSome_map']
  rw [List.getLast?_isSome]
  constructor
  · intro h
    rcases List.exists_mem_of_ne_nil _ h with ⟨o, ho⟩
    have := List.of_mem_filter ho
    exact ⟨o, List.mem_of_mem_filter ho, by simpa using this⟩
  · rintro ⟨o, ho, hle⟩
    intro hnil
    have : o ∈ s.filter (fun o => o.1 ≤ d) :=
      List.mem_filter.mpr ⟨ho, by simpa using hle⟩
    rw [hnil] at this
    simp at this

/-- The forward-fill completeness invariant for one non-empty series:
the panel value is present exactly at and after the series' first
observed date. -/
theorem ffill_invariant (s : List (Nat × ℚ)) (hs : s ≠ []) (d : Nat) :
    (lastObsAt s d).isSome ↔ firstDate s ≤ d := by
  rw [lastObsAt_isSome_iff]
  constructor
  · rintro ⟨o, ho, hle⟩
    exact le_trans (firstDate_le_of_mem s o ho) hle
  · intro h
    rcases firstDate_mem s hs with ⟨o, ho, heq⟩
    exact ⟨o, ho, heq ▸ h⟩

/-- C3: for every set of non-empty Source Series, the aligner succeeds
and produces the panel indexed by the full daily range between the
earliest and latest observed date across all sources (every observation
falls inside that range), and every column satisfies the forward-fill
completeness invariant: a value is present at a day exactly when the
day is at or after the column's first observed date — in particular no
missing value at or after the first observation, and positions strictly
before it remain missing. -/
theorem C3_aligned_panel_invariants (sources : List SourceSeries)
    (h : ∀ s ∈ sources, s.data ≠ []) :
    alignPanel sources =
      .ok (sources.map (fun s => (s.name,
        (dailyIndex (globalFirst sources) (globalLast sources)).map
          (fun d => (d, lastObsAt s.data d))))) ∧
    (∀ d, d ∈ dailyIndex (globalFirst sources) (globalLast sources) ↔
      globalFirst sources ≤ d ∧ d ≤ globalLast sources) ∧
    (∀ s ∈ sources, ∀ o ∈ s.data,
      globalFirst sources ≤ o.1 ∧ o.1 ≤ globalLast sources) ∧
    (∀ s ∈ sources, ∀ d,
      (lastObsAt s.data d).isSome ↔ firstDate s.data ≤ d) := by
  refine ⟨?_, fun d => mem_dailyIndex _ _ d, ?_, ?_⟩
  · unfold alignPanel
    have hnone : sources.find? (fun s => s.data.isEmpty) = none := by
      rw [List.find?_eq_none]
      intro s hs
      simpa [List.isEmpty_iff] using h s hs
    rw [hnone]
  · intro s hs o ho
    constructor
    · exact le_trans (globalFirst_le_firstDate sources s hs)
        (firstDate_le_of_mem s.data o ho)
    · exact le_trans (lastDate_ge_of_mem s.data o ho)
        (lastDate_le_globalLast sources s hs)
  · intro s hs d
    exact ffill_invariant s.data (h s hs) d

/-- Witness for C3: two concrete sources, one daily from day 1 and one
starting at day 3, checked concretely. -/
theorem C3_witness :
    (∀ s ∈ [⟨"gold", [(1, (5 : ℚ)), (2, 6)]⟩,
            (⟨"cpi", [(3, 9)]⟩ : SourceSeries)], s.data ≠ []) ∧
    (alignPanel [⟨"gold", [(1, 5), (2, 6)]⟩, ⟨"cpi", [(3, 9)]⟩] =
      .ok ([⟨"gold", [(1, (5 : ℚ)), (2, 6)]⟩, (⟨"cpi", [(3, 9)]⟩ : SourceSeries)].map
        (fun s => (s.name,
          (dailyIndex
            (globalFirst [⟨"gold", [(1, 5), (2, 6)]⟩, ⟨"cpi", [(3, 9)]⟩])
            (globalLast [⟨"gold", [(1, 5), (2, 6)]⟩, ⟨"cpi", [(3, 9)]⟩])).map
            (fun d => (d, lastObsAt s.data d))))) ∧
      (∀ d, d ∈ dailyIndex
          (globalFirst [⟨"gold", [(1, 5), (2, 6)]⟩, ⟨"cpi", [(3, 9)]⟩])
          (globalLast [⟨"gold", [(1, 5), (2, 6)]⟩, ⟨"cpi", [(3, 9)]⟩]) ↔
        globalFirst [⟨"gold", [(1, 5), (2, 6)]⟩, ⟨"cpi", [(3, 9)]⟩] ≤ d ∧
        d ≤ globalLast [⟨"gold", [(1, 5), (2, 6)]⟩, ⟨"cpi", [(3, 9)]⟩]) ∧
      (∀ s ∈ [⟨"gold", [(1, (5 : ℚ)), (2, 6)]⟩, (⟨"cpi", [(3, 9)]⟩ : SourceSeries)],
        ∀ o ∈ s.data,
        globalFirst [⟨"gold", [(1, 5), (2, 6)]⟩, ⟨"cpi", [(3, 9)]⟩] ≤ o.1 ∧
        o.1 ≤ globalLast [⟨"gold", [(1, 5), (2, 6)]⟩, ⟨"cpi", [(3, 9)]⟩]) ∧
      (∀ s ∈ [⟨"gold", [(1, (5 : ℚ)), (2, 6)]⟩, (⟨"cpi", [(3, 9)]⟩ : SourceSeries)],
        ∀ d, (lastObsAt s.data d).isSome ↔ firstDate s.data ≤ d)) :=
  ⟨by simp, C3_aligned_panel_invariants _ (by simp)⟩

/-! ## Feature Assembler -/

/-- Modelled from the spec: the fixed feature contract — 13 named
indicators, in fixed order, plus the target column. The spec fixes the
count and the fixed-order requirement; the indicator names are taken
from the repository's collected data sources. -/
def requiredColumns : List String :=
  ["Silver_Fututes", "Crude_Oil", "S&P_500", "NASDAQ", "Gold_ETF",
   "CPI", "Fed_Funds_Rate", "M2_Supply", "Unemployment",
   "Treasury_Yield_10Y", "Real_Interest_Rate", "USD_Index", "VIX",
   "Gold_Spot"]

/-- Modelled from the spec: the Feature Assembler — validates presence
of every required column by name (a missing required column is a fatal
`FeatureContractViolation`), projects the panel onto the contract in
fixed order, and trims leading rows until all required columns are
simultaneously non-missing. -/
def assemble (panel : List (String × List (Nat × Option ℚ))) :
    Except PipelineError (List (Nat × List ℚ)) :=
  match requiredColumns.find? (fun c => (panel.find? (fun col => col.1 == c)).isNone) with
  | some c => .error (.featureContractViolation c)
  | none =>
    let cols := requiredColumns.filterMap
      (fun c => (panel.find? (fun col => col.1 == c)).map Prod.snd)
    let dates := match cols with
      | [] => []
      | col :: _ => col.map Prod.fst
    let rows := dates.map (fun d =>
      (d, cols.filterMap (fun col =>
        (col.find? (fun e => e.1 == d)).bind Prod.snd)))
    .ok (rows.dropWhile (fun r => r.2.length < requiredColumns.length))

/-! ## Windowed Normalizer: lookback windows -/

/-- Modelled from the spec: the fixed lookback length L = 60. -/
def windowLength : Nat := 60

/-- The rows of the feature table available for a request targeting
date `t`: those dated at or before `t`. -/
def availRows (table : List (Nat × List ℚ)) (t : Nat) : List (Nat × List ℚ) :=
  table.filter (fun r => r.1 ≤ t)

/-- Modelled from the spec: windowing — the most recent L = 60 rows
ending at (or immediately before) the target date; fewer than L
available rows is a fatal `InsufficientHistory`, never a short or
padded window. -/
def buildWindow (table : List (Nat × List ℚ)) (t : Nat) :
    Except PipelineError (List (List ℚ)) :=
  let avail := availRows table t
  if avail.length < windowLength then .error .insufficientHistory
  else .ok ((avail.drop (avail.length - windowLength)).map Prod.snd)

/-- Modelled from the spec: per-feature normalization of one row
(feature i scaled with its own persisted parameters). -/
def normalizeRow (ps : List NormParams) (row : List ℚ) : List ℚ :=
  List.zipWith (fun p x => normalize p x) ps row

/-- Modelled from the spec: normalization of a whole window. -/
def normalizeWindow (ps : List NormParams) (w : List (List ℚ)) : List (List ℚ) :=
  w.map (normalizeRow ps)

/-! ## Model Ensemble Runner -/

/-- Modelled from the spec: a Model Descriptor — one trained model with
its name, its reported offline metrics, and its inference function from
a normalized window to a scalar normalized-space prediction or a
per-model failure. -/
structure ModelDescriptor where
  name : String
  r2 : ℚ
  mae : ℚ
  rmse : ℚ
  mape : ℚ
  run : List (List ℚ) → Except String ℚ

/-- Modelled from the spec: one model's entry in the ensemble output —
its denormalized prediction, or its captured per-model error
(`PartialEnsembleFailure` entry). -/
structure ModelResult where
  model : String
  r2 : ℚ
  outcome : Except String ℚ
  deriving Repr

/-- Run one model against the window and inverse-transform its output
back to price units with the target's parameters. -/
def runEntry (tp : NormParams) (m : ModelDescriptor) (w : List (List ℚ)) :
    ModelResult :=
  { model := m.name, r2 := m.r2, outcome := (m.run w).map (denormalize tp) }

/-- Modelled from the spec: the Model Ensemble Runner — each registered
model is run independently against the same window; a failure is
captured in that model's own entry. -/
def runEnsemble (tp : NormParams) (models : List ModelDescriptor)
    (w : List (List ℚ)) : List ModelResult :=
  models.map (fun m => runEntry tp m w)

/-- Whether a model's entry carries a successful prediction. -/
def resultOk (r : ModelResult) : Bool :=
  match r.outcome with
  | .ok _ => true
  | .error _ => false

/-! ## Forecast Aggregator -/

/-- Order on result entries: descending reported R². -/
def byDescR2 (a b : ModelResult) : Prop := b.r2 ≤ a.r2

instance : DecidableRel byDescR2 :=
  fun a b => inferInstanceAs (Decidable (b.r2 ≤ a.r2))

instance : IsTotal ModelResult byDescR2 :=
  ⟨fun a b => le_total b.r2 a.r2⟩

instance : IsTrans ModelResult byDescR2 :=
  ⟨fun _ _ _ h1 h2 => le_trans h2 h1⟩

/-- Modelled from the spec: the Forecast Aggregator orders the
per-model entries by descending R² (best model first), independent of
arrival order. -/
def aggregate (rs : List ModelResult) : List ModelResult :=
  List.insertionSort byDescR2 rs

/-- Modelled from the spec: the user-visible outcome — a fully failed
ensemble is a single top-level forecast failure; otherwise the
(possibly degraded) per-model entries are returned. -/
inductive ForecastOutcome where
  | success (results : List ModelResult)
  | totalFailure
  deriving Repr

/-- Finalize the ensemble output into the user-visible outcome. -/
def finalizeOutcome (rs : List ModelResult) : ForecastOutcome :=
  if rs.any resultOk then .success (aggregate rs) else .totalFailure

/-- Modelled from the spec: the full forecast-serving pipeline —
alignment, assembly, windowing, normalization, ensemble execution and
aggregation, with alignment/assembly/windowing failures aborting the
request before any model runs. -/
def runForecast (sources : List SourceSeries) (ps : List NormParams)
    (tp : NormParams) (models : List ModelDescriptor) (t : Nat) :
    Except PipelineError ForecastOutcome := do
  let panel ← alignPanel sources
  let table ← assemble panel
  let w ← buildWindow table t
  pure (finalizeOutcome (runEnsemble tp models (normalizeWindow ps w)))

/-- C2: for a request targeting date `t` over a feature table whose
rows all carry `fcount` features — when at least L = 60 rows are
available at or before `t`, the produced Window is exactly the most
recent 60 of those rows (a suffix of the available rows, every one
dated at or before `t`) with shape (60, fcount); when fewer than 60
rows are available the request fails with `InsufficientHistory` and no
shorter or padded window is returned. -/
theorem C2_window_shape_or_insufficient (table : List (Nat × List ℚ))
    (t fcount : Nat) (hF : ∀ r ∈ table, r.2.length = fcount) :
    (windowLength ≤ (availRows table t).length →
      ∃ w, buildWindow table t = .ok w ∧
        w.length = windowLength ∧
        (∀ row ∈ w, row.length = fcount) ∧
        w = ((availRows table t).drop
              ((availRows table t).length - windowLength)).map Prod.snd ∧
        ((availRows table t).drop
          ((availRows table t).length - windowLength)).IsSuffix (availRows table t) ∧
        (∀ r ∈ (availRows table t).drop
            ((availRows table t).length - windowLength), r.1 ≤ t)) ∧
    ((availRows table t).length < windowLength →
      buildWindow table t = .error .insufficientHistory) := by
  constructor
  · intro hge
    refine ⟨_, ?_, ?_, ?_, rfl, ?_, ?_⟩
    · simp only [buildWindow]
      rw [if_neg (Nat.not_lt.mpr hge)]
    · rw [List.length_map, List.length_drop]
      omega
    · intro row hrow
      rcases List.mem_map.mp hrow with ⟨r, hr, rfl⟩
      exact hF r (List.mem_of_mem_filter (List.mem_of_mem_drop hr))
    · exact List.drop_suffix _ _
    · intro r hr
      have hp := List.of_mem_filter (List.mem_of_mem_drop hr)
      simpa using hp
  · intro hlt
    simp only [buildWindow]
    rw [if_pos hlt]

/-- A 60-row, single-feature table used to exercise the windowing
operation concretely. -/
def windowDemoTable : List (Nat × List ℚ) :=
  (List.range 60).map (fun i => (i + 1, [(0 : ℚ)]))

/-- Witness for C2 at a concrete 60-row table with one feature,
targeting day 60. -/
theorem C2_witness :
    (∀ r ∈ windowDemoTable, r.2.length = 1) ∧
    ((windowLength ≤ (availRows windowDemoTable 60).length →
      ∃ w, buildWindow windowDemoTable 60 = .ok w ∧
        w.length = windowLength ∧
        (∀ row ∈ w, row.length = 1) ∧
        w = ((availRows windowDemoTable 60).drop
              ((availRows windowDemoTable 60).length - windowLength)).map Prod.snd ∧
        ((availRows windowDemoTable 60).drop
          ((availRows windowDemoTable 60).length - windowLength)).IsSuffix
            (availRows windowDemoTable 60) ∧
        (∀ r ∈ (availRows windowDemoTable 60).drop
            ((availRows windowDemoTable 60).length - windowLength), r.1 ≤ 60)) ∧
     ((availRows windowDemoTable 60).length < windowLength →
      buildWindow windowDemoTable 60 = .error .insufficientHistory)) :=
  ⟨by decide, C2_window_shape_or_insufficient windowDemoTable 60 1 (by decide)⟩

/-- C4: a panel lacking at least one required feature column makes the
Feature Assembler fail with `FeatureContractViolation` naming a missing
column, and the full pipeline on such a panel returns that same error —
so windowing and model inference never occur and no column is
substituted, dropped or silently omitted. -/
theorem C4_missing_column_aborts (panel : List (String × List (Nat × Option ℚ)))
    (hmiss : ∃ c ∈ requiredColumns, ∀ col ∈ panel, col.1 ≠ c) :
    ∃ c ∈ requiredColumns,
      (∀ col ∈ panel, col.1 ≠ c) ∧
      assemble panel = .error (.featureContractViolation c) ∧
      (∀ sources ps tp models t, alignPanel sources = .ok panel →
        runForecast sources ps tp models t =
          .error (.featureContractViolation c)) := by
  have hsome : (requiredColumns.find?
      (fun c => (panel.find? (fun col => col.1 == c)).isNone)).isSome := by
    rw [List.find?_isSome]
    rcases hmiss with ⟨c, hc, hnone⟩
    refine ⟨c, hc, ?_⟩
    rw [Option.isNone_iff_eq_none, List.find?_eq_none]
    intro col hcol
    simpa using hnone col hcol
  rcases Option.isSome_iff_exists.mp hsome with ⟨c0, hc0⟩
  have hmem : c0 ∈ requiredColumns := List.mem_of_find?_eq_some hc0
  have hpred := List.find?_some hc0
  have hnone0 : ∀ col ∈ panel, col.1 ≠ c0 := by
    intro col hcol
    rw [Option.isNone_iff_eq_none, List.find?_eq_none] at hpred
    simpa using hpred col hcol
  have hassemble : assemble panel = .error (.featureContractViolation c0) := by
    unfold assemble
    rw [hc0]
  refine ⟨c0, hmem, hnone0, hassemble, ?_⟩
  intro sources ps tp models t halign
  have h1 : runForecast sources ps tp models t =
      (assemble panel >>= fun table => buildWindow table t >>= fun w =>
        pure (finalizeOutcome (runEnsemble tp models (normalizeWindow ps w)))) := by
    unfold runForecast
    rw [halign]
    rfl
  rw [h1, hassemble]
  rfl

/-- Witness for C4 at a concrete one-column panel that lacks the other
required columns. -/
theorem C4_witness :
    (∃ c ∈ requiredColumns,
      ∀ col ∈ [(("Crude_Oil" : String), ([] : List (Nat × Option ℚ)))], col.1 ≠ c) ∧
    (∃ c ∈ requiredColumns,
      (∀ col ∈ [(("Crude_Oil" : String), ([] : List (Nat × Option ℚ)))], col.1 ≠ c) ∧
      assemble [("Crude_Oil", [])] = .error (.featureContractViolation c) ∧
      (∀ sources ps tp models t, alignPanel sources = .ok [("Crude_Oil", [])] →
        runForecast sources ps tp models t =
          .error (.featureContractViolation c))) :=
  ⟨⟨"Silver_Fututes", by decide, by decide⟩,
   C4_missing_column_aborts _ ⟨"Silver_Fututes", by decide, by decide⟩⟩

/-- C8: an entirely empty Source Series makes the Calendar Aligner's
merge fail with `MissingSourceData` naming an (empty) offending source,
and the full pipeline returns that same error for every model registry
— the request aborts before any model runs. -/
theorem C8_empty_source_aborts (sources : List SourceSeries) (s : SourceSeries)
    (hs : s ∈ sources) (hempty : s.data = []) :
    ∃ t0, t0 ∈ sources ∧ t0.data = [] ∧
      alignPanel sources = .error (.missingSourceData t0.name) ∧
      (∀ ps tp models t, runForecast sources ps tp models t =
        .error (.missingSourceData t0.name)) := by
  have hsome : (sources.find? (fun s => s.data.isEmpty)).isSome := by
    rw [List.find?_isSome]
    exact ⟨s, hs, by simp [hempty]⟩
  rcases Option.isSome_iff_exists.mp hsome with ⟨t0, ht0⟩
  have hmem : t0 ∈ sources := List.mem_of_find?_eq_some ht0
  have hpred := List.find?_some ht0
  have hdata : t0.data = [] := by simpa [List.isEmpty_iff] using hpred
  have halign : alignPanel sources = .error (.missingSourceData t0.name) := by
    unfold alignPanel
    rw [ht0]
  refine ⟨t0, hmem, hdata, halign, ?_⟩
  intro ps tp models t
  unfold runForecast
  rw [halign]
  rfl

/-- Witness for C8 at a concrete registry holding one empty source. -/
theorem C8_witness :
    ((⟨"vix", []⟩ : SourceSeries) ∈ [(⟨"vix", []⟩ : SourceSeries)] ∧
     (⟨"vix", []⟩ : SourceSeries).data = []) ∧
    (∃ t0, t0 ∈ [(⟨"vix", []⟩ : SourceSeries)] ∧ t0.data = [] ∧
      alignPanel [⟨"vix", []⟩] = .error (.missingSourceData t0.name) ∧
      (∀ ps tp models t, runForecast [⟨"vix", []⟩] ps tp models t =
        .error (.missingSourceData t0.name))) :=
  ⟨⟨List.mem_singleton_self _, rfl⟩,
   C8_empty_source_aborts [⟨"vix", []⟩] ⟨"vix", []⟩ (List.mem_singleton_self _) rfl⟩

/-- C5: ensemble execution is per-model: the entries of an ensemble
split around any one model into that model's own entry and the
unchanged entries of its siblings, every registered model contributes
its own entry (a prediction or its captured per-model error), and as
soon as one model succeeds the run finalizes into a success carrying
all per-model entries — it never aborts because a sibling failed. -/
theorem C5_partial_ensemble_isolated (tp : NormParams)
    (ms₁ ms₂ : List ModelDescriptor) (m : ModelDescriptor) (w : List (List ℚ))
    (hok : ∃ m' ∈ ms₁ ++ m :: ms₂, resultOk (runEntry tp m' w) = true) :
    runEnsemble tp (ms₁ ++ m :: ms₂) w =
      runEnsemble tp ms₁ w ++ runEntry tp m w :: runEnsemble tp ms₂ w ∧
    (∀ m' ∈ ms₁ ++ m :: ms₂,
      runEntry tp m' w ∈ runEnsemble tp (ms₁ ++ m :: ms₂) w) ∧
    finalizeOutcome (runEnsemble tp (ms₁ ++ m :: ms₂) w) =
      .success (aggregate (runEnsemble tp (ms₁ ++ m :: ms₂) w)) := by
  refine ⟨?_, ?_, ?_⟩
  · simp [runEnsemble]
  · intro m' hm'
    exact List.mem_map_of_mem _ hm'
  · unfold finalizeOutcome
    rw [if_pos ?_]
    rw [List.any_eq_true]
    rcases hok with ⟨m', hm', hres⟩
    exact ⟨runEntry tp m' w, List.mem_map_of_mem _ hm', hres⟩

/-- Target-feature parameters used in the concrete ensemble scenario. -/
def demoTP : NormParams := ⟨0, 1⟩

/-- A healthy model for the concrete ensemble scenario. -/
def mGRU : ModelDescriptor := ⟨"gru", 99 / 100, 0, 0, 0, fun _ => .ok (1 / 2)⟩

/-- The model with the corrupted/incompatible artifact in the concrete
ensemble scenario: its inference always fails. -/
def mLSTM : ModelDescriptor := ⟨"lstm", 98 / 100, 0, 0, 0, fun _ => .error "corrupt artifact"⟩

/-- A second healthy model for the concrete ensemble scenario. -/
def mRNN : ModelDescriptor := ⟨"rnn", 97 / 100, 0, 0, 0, fun _ => .ok (1 / 4)⟩

/-- Witness for C5: three registered models of which one has a
corrupted artifact — the run returns two valid predictions and one
per-model failure entry, not a total failure. -/
theorem C5_witness :
    (∃ m' ∈ [mGRU] ++ mLSTM :: [mRNN],
      resultOk (runEntry demoTP m' []) = true) ∧
    (runEnsemble demoTP ([mGRU] ++ mLSTM :: [mRNN]) [] =
      runEnsemble demoTP [mGRU] [] ++
        runEntry demoTP mLSTM [] :: runEnsemble demoTP [mRNN] [] ∧
     (∀ m' ∈ [mGRU] ++ mLSTM :: [mRNN],
       runEntry demoTP m' [] ∈ runEnsemble demoTP ([mGRU] ++ mLSTM :: [mRNN]) []) ∧
     finalizeOutcome (runEnsemble demoTP ([mGRU] ++ mLSTM :: [mRNN]) []) =
       .success (aggregate (runEnsemble demoTP ([mGRU] ++ mLSTM :: [mRNN]) []))) ∧
    ((runEnsemble demoTP ([mGRU] ++ mLSTM :: [mRNN]) []).filter resultOk).length = 2 ∧
    ((runEnsemble demoTP ([mGRU] ++ mLSTM :: [mRNN]) []).filter
      (fun r => !resultOk r)).length = 1 :=
  ⟨⟨mGRU, by simp, rfl⟩,
   C5_partial_ensemble_isolated demoTP [mGRU] [mRNN] mLSTM [] ⟨mGRU, by simp, rfl⟩,
   by rfl, by rfl⟩

/-- C6: for every list of per-model entries, in whatever completion
order it arrives, the aggregated Forecast Result is sorted by
non-increasing R² and is a permutation of the entries (nothing added or
lost by aggregation). -/
theorem C6_aggregate_sorted_desc_r2 (rs : List ModelResult) :
    (aggregate rs).Sorted byDescR2 ∧ (aggregate rs).Perm rs :=
  ⟨List.sorted_insertionSort byDescR2 rs, List.perm_insertionSort byDescR2 rs⟩

/-! ## Data-collection notebook (src/collect_data.ipynb) -/

/-- The market cell's ticker dictionary: yfinance ticker ↦ saved column
name, exactly as written in the source — with `UUP`, `PL=F` and
`BTC-USD` commented out and `Silver_Fututes` spelled as in the source. -/
def marketTickers : List (String × String) :=
  [("GC=F", "Gold_Futures"), ("SI=F", "Silver_Fututes"), ("CL=F", "Crude_Oil"),
   ("^GSPC", "S&P_500"), ("^IXIC", "NASDAQ"), ("GLD", "Gold_ETF")]

/-- The only price field the market cell extracts (`raw_data['Close']`). -/
def closeField : String := "Close"

/-- The market cell's saved panel: the Close series of each listed
ticker, renamed by the ticker dictionary. `raw` maps a ticker and a
price field to that downloaded series. -/
def marketPanelSaved (raw : String → String → List ℚ) : List (String × List ℚ) :=
  marketTickers.map (fun p => (p.2, raw p.1 closeField))

/-- Start bound of the market cell's download (`start='2000-01-01'`). -/
def marketStartDate : Nat := 20000101

/-- End bound of the market cell's download (`end='2024-12-31'`). -/
def marketEndDate : Option Nat := some 20241231

/-- Start bound of the FRED macro downloads (`start_date = '2000-01-01'`). -/
def macroStartDate : Nat := 20000101

/-- End bound of the FRED macro downloads (`end_date = '2024-12-31'`). -/
def macroEndDate : Option Nat := some 20241231

/-- Start bound of the VIX download (`start="2000-01-01"`). -/
def vixStartDate : Nat := 20000101

/-- End bound of the VIX download: none is passed in the source. -/
def vixEndDate : Option Nat := none

/-- Whether a date passes an optional end bound. -/
def withinStop (stop : Option Nat) (d : Nat) : Bool :=
  match stop with
  | some e => d ≤ e
  | none => true

/-- Model of a provider download executed on day `runDate`: of the
observation dates the provider has, those at or past the requested
start, within the optional end bound, and not past the run date. -/
def downloadDates (avail : List Nat) (runDate startDate : Nat)
    (stop : Option Nat) : List Nat :=
  avail.filter (fun d =>
    decide (startDate ≤ d) && decide (d ≤ runDate) && withinStop stop d)

/-- Latest date in a list of dates (0 when empty). -/
def lastDay (l : List Nat) : Nat := l.foldr Nat.max 0

theorem le_lastDay_of_mem : ∀ (l : List Nat) (d : Nat), d ∈ l → d ≤ lastDay l
  | [], d, h => by simp at h
  | a :: t, d, h => by
    rcases List.mem_cons.mp h with rfl | h2
    · exact Nat.le_max_left _ _
    · exact le_trans (le_lastDay_of_mem t d h2) (Nat.le_max_right _ _)

theorem lastDay_le (l : List Nat) (b : Nat) (hb : ∀ d ∈ l, d ≤ b) :
    lastDay l ≤ b := by
  induction l with
  | nil => exact Nat.zero_le b
  | cons a t ih =>
    have ha := hb a (List.mem_cons_self a t)
    have ht := ih (fun d hd => hb d (List.mem_cons_of_mem a hd))
    exact Nat.max_le.mpr ⟨ha, ht⟩

/-- C9: the market and FRED macro downloads are bounded by the explicit
end date 2024-12-31 while the VIX download has no end bound; hence on
any run executed after 2024-12-31 on which the providers have at least
one observation date past 2024-12-31, the raw VIX series' last
observation date strictly exceeds every other source's last date — and
any series whose true observations end by 2024-12-31, forward-filled by
the aligner onto the union range, carries its last value unchanged at
every later day (filled past its true last observation). -/
theorem C9_vix_download_unbounded (avail : List Nat) (runDate d : Nat)
    (hd : d ∈ avail) (hafter : 20241231 < d) (hrun : d ≤ runDate) :
    marketEndDate = some 20241231 ∧
    macroEndDate = some 20241231 ∧
    vixEndDate = none ∧
    lastDay (downloadDates avail runDate marketStartDate marketEndDate) <
      lastDay (downloadDates avail runDate vixStartDate vixEndDate) ∧
    lastDay (downloadDates avail runDate macroStartDate macroEndDate) <
      lastDay (downloadDates avail runDate vixStartDate vixEndDate) ∧
    (∀ (s : List (Nat × ℚ)), s ≠ [] → (∀ o ∈ s, o.1 ≤ 20241231) →
      ∀ e, 20241231 < e →
        lastObsAt s e = lastObsAt s 20241231 ∧ (lastObsAt s e).isSome) := by
  have hvixmem : d ∈ downloadDates avail runDate vixStartDate vixEndDate := by
    unfold downloadDates
    refine List.mem_filter.mpr ⟨hd, ?_⟩
    simp only [withinStop, vixStartDate, vixEndDate, Bool.and_eq_true,
      decide_eq_true_eq, Bool.and_true]
    exact ⟨by omega, hrun⟩
  have hvix : 20241231 <
      lastDay (downloadDates avail runDate vixStartDate vixEndDate) :=
    lt_of_lt_of_le hafter (le_lastDay_of_mem _ d hvixmem)
  have hmarket :
      lastDay (downloadDates avail runDate marketStartDate marketEndDate) ≤
        20241231 := by
    apply lastDay_le
    intro x hx
    have hp := List.of_mem_filter hx
    simp only [withinStop, marketEndDate, Bool.and_eq_true,
      decide_eq_true_eq] at hp
    exact hp.2
  have hmacro :
      lastDay (downloadDates avail runDate macroStartDate macroEndDate) ≤
        20241231 := by
    apply lastDay_le
    intro x hx
    have hp := List.of_mem_filter hx
    simp only [withinStop, macroEndDate, Bool.and_eq_true,
      decide_eq_true_eq] at hp
    exact hp.2
  refine ⟨rfl, rfl, rfl, by omega, by omega, ?_⟩
  intro s hs hb e he
  have hfe : s.filter (fun o => o.1 ≤ e) = s := by
    rw [List.filter_eq_self]
    intro o ho
    simpa using le_trans (hb o ho) (by omega)
  have hf24 : s.filter (fun o => o.1 ≤ 20241231) = s := by
    rw [List.filter_eq_self]
    intro o ho
    simpa using hb o ho
  constructor
  · unfold lastObsAt
    rw [hfe, hf24]
  · rw [lastObsAt_isSome_iff]
    rcases List.exists_mem_of_ne_nil s hs with ⟨o, ho⟩
    exact ⟨o, ho, le_trans (hb o ho) (by omega)⟩

/-- Witness for C9 on a concrete provider calendar containing the
trading day 2025-01-02, run on 2025-01-03. -/
theorem C9_witness :
    ((20250102 : Nat) ∈ [20241230, 20241231, 20250102] ∧
     (20241231 : Nat) < 20250102 ∧ (20250102 : Nat) ≤ 20250103) ∧
    (marketEndDate = some 20241231 ∧
     macroEndDate = some 20241231 ∧
     vixEndDate = none ∧
     lastDay (downloadDates [20241230, 20241231, 20250102] 20250103
        marketStartDate marketEndDate) <
       lastDay (downloadDates [20241230, 20241231, 20250102] 20250103
        vixStartDate vixEndDate) ∧
     lastDay (downloadDates [20241230, 20241231, 20250102] 20250103
        macroStartDate macroEndDate) <
       lastDay (downloadDates [20241230, 20241231, 20250102] 20250103
        vixStartDate vixEndDate) ∧
     (∀ (s : List (Nat × ℚ)), s ≠ [] → (∀ o ∈ s, o.1 ≤ 20241231) →
       ∀ e, 20241231 < e →
         lastObsAt s e = lastObsAt s 20241231 ∧ (lastObsAt s e).isSome)) :=
  ⟨⟨by decide, by decide, by decide⟩,
   C9_vix_download_unbounded [20241230, 20241231, 20250102] 20250103 20250102
     (by decide) (by decide) (by decide)⟩

/-- C10: the saved market panel consists of exactly the Close series of
the six downloaded tickers, renamed to Gold_Futures, Silver_Fututes
(misspelled as in the source), Crude_Oil, S&P_500, NASDAQ, Gold_ETF;
every saved column is some ticker's Close series — no other price field
and no other ticker is written. -/
theorem C10_market_panel_close_only (raw : String → String → List ℚ) :
    (marketPanelSaved raw).map Prod.fst =
      ["Gold_Futures", "Silver_Fututes", "Crude_Oil", "S&P_500", "NASDAQ", "Gold_ETF"] ∧
    marketTickers.map Prod.fst = ["GC=F", "SI=F", "CL=F", "^GSPC", "^IXIC", "GLD"] ∧
    (∀ col ∈ marketPanelSaved raw, ∃ p ∈ marketTickers,
      col = (p.2, raw p.1 closeField)) ∧
    (marketPanelSaved raw).length = 6 := by
  refine ⟨rfl, rfl, ?_, rfl⟩
  intro col hcol
  rcases List.mem_map.mp hcol with ⟨p, hp, rfl⟩
  exact ⟨p, hp, rfl⟩

end GoldForecast
